import Mathlib

/-
Shallow embedding of the go-lynx/lynx-http repository (Go) in Lean 4.

Source files embedded:
  * src/encoder.go   — Response struct, ResponseEncoder, EncodeErrorFunc
  * src/handlers.go  — defaultErrorCode, notFoundHandler, methodNotAllowedHandler,
                       enhancedErrorEncoder (the business-agnostic variant with the
                       pluggable ErrorCodeMapper, which the repository treats as
                       authoritative; the deprecated string-matching variant in
                       src/unnamed/part_000 is not embedded)
  * src/unnamed/part_001 — trace/log middleware: extractTraceContextFromRequest,
                       traceIDAndSpanIDFromSpan, getClientIP, safeProtoToJSON,
                       TracerLogPack, TracerLogPackWithMetrics

Modelling conventions:
  * Serialized JSON bodies are assoc lists `JObj`; Go struct serialization
    with the omitempty tag is mirrored field by field.
  * encoding/json.Marshal of the Response struct fails exactly when the
    interface-typed Data payload holds an unmarshalable value (channels,
    functions, ...); this is the only failure source, so marshalling is the
    deterministic function `jsonMarshalResponse` over a three-valued data model.
    json.Marshal of map[string]interface\x7bcode: int\x7d cannot fail in Go,
    so `jsonMarshalCodeObj` always succeeds (the dead failure branches of the
    Go code are still mirrored).
  * A content-negotiated codec (http.CodecForRequest) is external; it is
    modelled as `Option Bool`: `none` = no codec available (JSON fallback
    branch), `some ok` = codec present and its Marshal of the envelope
    succeeds iff `ok`, producing a faithful encoding of the envelope
    (represented by the envelope's JSON view).
  * Byte strings (marshalled bodies) are modelled as `String` whose length
    is the byte count.
  * Writers, loggers and metric sinks are externalized into the result
    record: the status passed to WriteHeader, the Content-Type header, the
    body handed to Write, counter-increment label tuples, and log events.
-/

namespace LynxHttp

/-- A JSON value appearing as a field of a serialized envelope: an integer,
    a string, or an arbitrary payload value that this development never
    inspects (the interface-typed Data payload), kept abstract as a tag. -/
inductive JValue where
  | num (n : Int)
  | str (s : String)
  | arb (tag : Nat)
deriving DecidableEq, Repr

/-- A serialized JSON object body: its fields in serialization order. -/
abbrev JObj := List (String × JValue)

/-- Field lookup in a serialized JSON object. -/
def jsonLookup (o : JObj) (k : String) : Option JValue :=
  (o.find? (fun p => p.1 == k)).map (·.2)

/-- Kratos errors.Error: the fields the embedded code reads. -/
structure KError where
  code : Int
  reason : String
  message : String
deriving DecidableEq, Repr

/-- A Go error value handed to an error encoder: either a Kratos *Error or a
    plain error. `Option GoError` models a possibly-nil error interface. -/
inductive GoError where
  | kratos (code : Int) (reason message : String)
  | plain (message : String)
deriving DecidableEq, Repr

/-- kratos errors.FromError: nil stays nil; a Kratos error is returned as is;
    any other error is wrapped with UnknownCode (500) and empty reason. -/
def FromError : Option GoError → Option KError
  | none => none
  | some (.kratos c r m) => some ⟨c, r, m⟩
  | some (.plain m) => some ⟨500, "", m⟩

/-- src/handlers.go defaultErrorCode: se.Code, or 500 when nil or zero. -/
def defaultErrorCode : Option KError → Int
  | none => 500
  | some se => if se.code ≠ 0 then se.code else 500

/-- The interface-typed Data payload of the Response struct: absent (nil),
    a JSON-representable value, or a value on which json.Marshal errors. -/
inductive DataVal where
  | noData
  | val (v : JValue)
  | unencodable
deriving DecidableEq, Repr

/-- JSON serialization of the Response struct of src/encoder.go: the fields
    code, message, data in struct order, each dropped when empty per its
    omitempty tag (0, "", nil respectively). -/
def responseToJson (code : Int) (message : String) (data : DataVal) : JObj :=
  (if code = 0 then [] else [("code", JValue.num code)]) ++
  (if message = "" then [] else [("message", JValue.str message)]) ++
  (match data with | .val v => [("data", v)] | _ => [])

/-- encoding/json.Marshal of a Response value: fails exactly when Data is
    unmarshalable, otherwise yields the struct's JSON view. -/
def jsonMarshalResponse (code : Int) (message : String) (data : DataVal) : Option JObj :=
  match data with
  | .unencodable => none
  | _ => some (responseToJson code message data)

/-- encoding/json.Marshal of map[string]interface\x7b"code": code\x7d with an
    int code: cannot fail in Go. -/
def jsonMarshalCodeObj (code : Int) : Option JObj :=
  some [("code", JValue.num code)]

/-- Observable outcome of one encoder invocation: the explicit WriteHeader
    status (none = never called explicitly), the Content-Type header value
    set, the body handed to Write, the error-counter label tuples
    incremented, and whether a non-nil error was returned to the caller. -/
structure EncResult where
  status : Option Nat
  contentType : Option String
  body : Option JObj
  counters : List (String × String × String)
  retErr : Bool
deriving DecidableEq, Repr

/-- src/encoder.go ResponseEncoder: wraps data in Response(200, "success", data);
    no codec → JSON fallback (500 + return error on marshal failure, else
    Content-Type json and write body); codec → write its marshal result, or
    500 + return error on failure. -/
def ResponseEncoder (codec : Option Bool) (data : DataVal) : EncResult :=
  match codec with
  | none =>
    match jsonMarshalResponse 200 "success" data with
    | none => ⟨some 500, none, none, [], true⟩
    | some b => ⟨none, some "application/json", some b, [], false⟩
  | some ok =>
    if ok then ⟨none, none, some (responseToJson 200 "success" data), [], false⟩
    else ⟨some 500, none, none, [], true⟩

/-- src/encoder.go EncodeErrorFunc: envelope Response with only Code set
    (defaultErrorCode of the Kratos view of err); status 200 on every branch;
    codec marshal failure writes no body. -/
def EncodeErrorFunc (codec : Option Bool) (err : Option GoError) : EncResult :=
  let se := FromError err
  let code := defaultErrorCode se
  match codec with
  | none => ⟨some 200, some "application/json", jsonMarshalResponse code "" .noData, [], false⟩
  | some ok =>
    if ok then ⟨some 200, some "application/json", some (responseToJson code "" .noData), [], false⟩
    else ⟨some 200, none, none, [], false⟩

/-- src/handlers.go enhancedErrorEncoder: code from the configured
    ErrorCodeMapper when present, else defaultErrorCode; counter labelled
    (method, path, "server_error") when the error counter exists; status 200;
    body is the one-field code object, with the hard-coded fallback
    literal on (unreachable) marshal failure. -/
def enhancedErrorEncoder (mapper : Option (Option KError → Int)) (counterPresent : Bool)
    (method path : String) (err : Option GoError) : EncResult :=
  let se := FromError err
  let code := match mapper with
    | some f => f se
    | none => defaultErrorCode se
  let counters := if counterPresent then [(method, path, "server_error")] else []
  let body := match jsonMarshalCodeObj code with
    | some d => d
    | none => [("code", JValue.num 500)]
  ⟨some 200, some "application/json", some body, counters, false⟩

/-- Observable outcome of a fallback handler: status written, Content-Type,
    body delivered (none when the Write call failed), counter labels
    incremented, whether the warning was logged, whether a marshal-failure
    error was logged. -/
structure FbResult where
  status : Nat
  contentType : Option String
  body : Option JObj
  counters : List (String × String × String)
  warned : Bool
  errLogged : Bool
deriving DecidableEq, Repr

/-- src/handlers.go notFoundHandler: 404, code-only body (hard-coded literal
    fallback if marshal fails), returning early on write failure so that the
    counter increment and the warning happen only after a successful write. -/
def notFoundHandler (counterPresent marshalOk writeOk : Bool)
    (method path : String) : FbResult :=
  let counters := if counterPresent then [(method, path, "not_found")] else []
  if marshalOk then
    if writeOk then ⟨404, some "application/json", some [("code", JValue.num 404)], counters, true, false⟩
    else ⟨404, some "application/json", none, [], false, false⟩
  else
    if writeOk then ⟨404, some "application/json", some [("code", JValue.num 404)], counters, true, true⟩
    else ⟨404, some "application/json", none, [], false, true⟩

/-- src/handlers.go methodNotAllowedHandler: symmetric to notFoundHandler
    with status 405 and counter reason "method_not_allowed". -/
def methodNotAllowedHandler (counterPresent marshalOk writeOk : Bool)
    (method path : String) : FbResult :=
  let counters := if counterPresent then [(method, path, "method_not_allowed")] else []
  if marshalOk then
    if writeOk then ⟨405, some "application/json", some [("code", JValue.num 405)], counters, true, false⟩
    else ⟨405, some "application/json", none, [], false, false⟩
  else
    if writeOk then ⟨405, some "application/json", some [("code", JValue.num 405)], counters, true, true⟩
    else ⟨405, some "application/json", none, [], false, true⟩

/-! Middleware embedding (src/unnamed/part_001). -/

/-- src/unnamed/part_001 constant maxBodySize = 1024*1024 (1 MiB). -/
def maxBodySize : Nat := 1024 * 1024

/-- src/unnamed/part_001 constant contentTypeKey. -/
def contentTypeKey : String := "Content-Type"

/-- src/unnamed/part_001 constant jsonContentType. -/
def jsonContentType : String := "application/json"

/-- src/unnamed/part_001 constant traceIDNone. -/
def traceIDNone : String := "none"

/-- src/unnamed/part_001 constant spanIDNone. -/
def spanIDNone : String := "none"

/-- Lowercase hex digit for a value below 16. -/
def hexDigitChar (n : Nat) : Char :=
  if n < 10 then Char.ofNat (48 + n) else Char.ofNat (87 + n)

/-- The `w` least-significant hex digits of `n`, most significant first. -/
def hexChars : Nat → Nat → List Char
  | _, 0 => []
  | n, w + 1 => hexChars (n / 16) w ++ [hexDigitChar (n % 16)]

/-- Zero-padded lowercase hex rendering of `n` at width `w`, as OTel renders
    trace ids (width 32) and span ids (width 16). -/
def toHexPad (n w : Nat) : String := String.mk (hexChars n w)

/-- OTel trace.SpanContext: the 128-bit trace id and 64-bit span id as
    numbers (remote/flags bits are irrelevant to the embedded code). -/
structure SpanContext where
  traceID : Nat
  spanID : Nat
deriving DecidableEq, Repr

/-- OTel SpanContext.IsValid: both ids non-zero. -/
def SpanContext.isValid (s : SpanContext) : Bool :=
  s.traceID ≠ 0 && s.spanID ≠ 0

/-- src/unnamed/part_001 traceIDAndSpanIDFromSpan: hex-rendered ids for a
    valid span, the "none" sentinels otherwise. -/
def traceIDAndSpanIDFromSpan (span : SpanContext) : String × String :=
  if span.isValid then (toHexPad span.traceID 32, toHexPad span.spanID 16)
  else (traceIDNone, spanIDNone)

/-- Go context.Context as the embedded code observes it: the result of
    ctx.Err() and the span context bound in the context (none = no span). -/
structure Ctx where
  err : Option String
  span : Option SpanContext
deriving DecidableEq, Repr

/-- OTel trace.SpanContextFromContext: the bound span context, or the
    zero-valued (invalid) one when none is bound. -/
def ctxSpanContext (c : Ctx) : SpanContext :=
  c.span.getD ⟨0, 0⟩

/-- transport.Header modelled as an ordered association list. -/
abbrev Headers := List (String × String)

/-- Header lookup: first binding of the key. -/
def headerGet (h : Headers) (k : String) : Option String :=
  (h.find? (fun p => p.1 == k)).map (·.2)

/-- Header.Get as Go exposes it: empty string when the key is absent. -/
def headerGetStr (h : Headers) (k : String) : String :=
  (headerGet h k).getD ""

/-- Header.Set: bind the key to exactly this value, dropping older bindings. -/
def setHeader (h : Headers) (k v : String) : Headers :=
  (k, v) :: h.filter (fun p => p.1 != k)

/-- W3C traceparent uses lowercase hex only. -/
def isLowerHexDigit (c : Char) : Bool :=
  ('0' ≤ c && c ≤ '9') || ('a' ≤ c && c ≤ 'f')

/-- Numeric value of a lowercase hex digit. -/
def hexVal (c : Char) : Nat :=
  if c ≤ '9' then c.toNat - 48 else c.toNat - 87

/-- Parse a non-empty lowercase-hex character sequence. -/
def parseHexList (l : List Char) : Option Nat :=
  if l.length != 0 && l.all isLowerHexDigit then
    some (l.foldl (fun a c => a * 16 + hexVal c) 0)
  else none

/-- Split a character sequence on the dash delimiter. -/
def splitOnDash : List Char → List Char → List (List Char)
  | [], acc => [acc.reverse]
  | c :: rest, acc =>
    if c = '-' then acc.reverse :: splitOnDash rest []
    else splitOnDash rest (c :: acc)

/-- Model of the external W3C TraceContext propagator's header parsing
    (go.opentelemetry.io/otel/propagation.TraceContext): a traceparent header
    "ver-traceid-spanid-flags" with lowercase hex fields of widths 2/32/16/2,
    version not "ff", and non-zero trace and span ids; anything else is
    invalid and yields no span context. -/
def parseTraceparent (h : Headers) : Option SpanContext :=
  match splitOnDash (headerGetStr h "traceparent").toList [] with
  | [ver, tid, sid, flags] =>
    if ver.length == 2 && ver != ['f', 'f'] && tid.length == 32 &&
       sid.length == 16 && flags.length == 2 then
      match parseHexList ver, parseHexList tid, parseHexList sid, parseHexList flags with
      | some _, some t, some s, some _ =>
        if t != 0 && s != 0 then some ⟨t, s⟩ else none
      | _, _, _, _ => none
    else none
  | _ => none

/-- Model of propagation.TraceContext.Extract (the span-relevant part of the
    composite propagator tracePropagator): when the carrier holds a valid
    traceparent its span context is bound into the context (as the remote
    span context, replacing any previous binding); otherwise the context is
    returned unchanged. The Baggage member of the composite propagator never
    touches the span binding and is omitted. -/
def TraceContextExtract (ctx : Ctx) (h : Headers) : Ctx :=
  match parseTraceparent h with
  | none => ctx
  | some sc => { ctx with span := some sc }

/-- src/unnamed/part_001 extractTraceContextFromRequest: nil header guard,
    then delegate to the propagator. -/
def extractTraceContextFromRequest (ctx : Ctx) (reqHeader : Option Headers) : Ctx :=
  match reqHeader with
  | none => ctx
  | some h => TraceContextExtract ctx h

/-- src/unnamed/part_001 getClientIP: X-Forwarded-For first, then X-Real-IP,
    first non-empty wins, else "unknown". -/
def getClientIP (h : Headers) : String :=
  if headerGetStr h "X-Forwarded-For" != "" then headerGetStr h "X-Forwarded-For"
  else if headerGetStr h "X-Real-IP" != "" then headerGetStr h "X-Real-IP"
  else "unknown"

/-- Outcome of protojson.Marshal: the marshalled byte string or the error
    message. -/
inductive MarshalRes where
  | ok (body : String)
  | failed (msg : String)
deriving DecidableEq, Repr

/-- A proto.Message as the middleware observes it: the outcome of
    protojson.Marshal (a byte string, or an error message) and the byte size
    of proto.Marshal when that succeeds. -/
structure PMsg where
  pjson : MarshalRes
  pbinSize : Option Nat
deriving DecidableEq, Repr

/-- A request or reply value: a proto.Message, some other non-nil value
    (carrying its Go %#v debug rendering), or nil. -/
inductive Payload where
  | proto (m : PMsg)
  | raw (repr : String)
  | nil
deriving DecidableEq, Repr

/-- The oversize placeholder string of safeProtoToJSON, stating the byte
    count.  -/
def oversizePlaceholder (n : Nat) : String :=
  s!"<body too large, size: {n} bytes>"

/-- src/unnamed/part_001 safeProtoToJSON: marshal error is returned as the
    error component; an over-limit body (strictly more than maxBodySize
    bytes) is replaced by the size placeholder; otherwise the body itself. -/
def safeProtoToJSON (m : PMsg) : String × Option String :=
  match m.pjson with
  | .failed e => ("", some e)
  | .ok body =>
    if body.length > maxBodySize then (oversizePlaceholder body.length, none)
    else (body, none)

/-- The middleware's request/response body logging: safeProtoToJSON for
    proto messages with the failure placeholder on marshal error (label is
    "request" or "response"), the %#v rendering otherwise. -/
def logBodyFor (label : String) (p : Payload) : String :=
  match p with
  | .proto m =>
    match safeProtoToJSON m with
    | (b, none) => b
    | (_, some e) => s!"<failed to marshal {label}: {e}>"
  | .raw r => r
  | .nil => "<nil>"

/-- A log emission of the middleware. -/
inductive LogEvent where
  | warnNoTransport
  | request (api endpoint clientIP body : String)
  | response (isError : Bool) (api endpoint body : String)
deriving DecidableEq, Repr

/-- A metric-sink update of the metrics-enabled middleware, with its label
    values as the code passes them to WithLabelValues. -/
inductive MetricEvent where
  | inflightInc (api : String)
  | inflightDec (api : String)
  | requestSize (method api : String) (bytes : Nat)
  | responseSize (method api : String) (bytes : Nat)
  | requestDuration (method api : String)
  | requestCount (method api status : String)
  | errorCount (method api reason : String)
deriving DecidableEq, Repr

/-- Label components of a metric event: the method label value (none for the
    in-flight gauge, which carries no method label) and the operation label. -/
def MetricEvent.methodLabel : MetricEvent → Option String
  | .inflightInc _ => none
  | .inflightDec _ => none
  | .requestSize m _ _ => some m
  | .responseSize m _ _ => some m
  | .requestDuration m _ => some m
  | .requestCount m _ _ => some m
  | .errorCount m _ _ => some m

/-- The operation-name label of a metric event. -/
def MetricEvent.apiLabel : MetricEvent → String
  | .inflightInc a => a
  | .inflightDec a => a
  | .requestSize _ a _ => a
  | .responseSize _ a _ => a
  | .requestDuration _ a => a
  | .requestCount _ a _ => a
  | .errorCount _ a _ => a

/-- transport.Transporter of the inbound request: request headers, the reply
    header map in its state at middleware entry, endpoint, operation name,
    plus the HTTP method of the underlying request (present on the wire; the
    Transporter interface used by this middleware never exposes it). -/
structure Transp where
  reqHeader : Headers
  replyHeader : Headers
  endpoint : String
  operation : String
  method : String
deriving DecidableEq, Repr

/-- Which metric sinks of the ServiceHttp instance are non-nil. -/
structure ServiceM where
  hasInflight : Bool
  hasRequestSize : Bool
  hasRequestDuration : Bool
  hasRequestCounter : Bool
  hasResponseSize : Bool
  hasErrorCounter : Bool
deriving DecidableEq, Repr

/-- Observable outcome of one middleware invocation: returned reply and
    error, whether the downstream handler ran, whether trace extraction was
    performed, the final reply headers, and the log and metric emissions in
    order. -/
structure MwResult where
  reply : Option Payload
  err : Option String
  handlerInvoked : Bool
  traceExtracted : Bool
  replyHeader : Headers
  logs : List LogEvent
  metrics : List MetricEvent
deriving DecidableEq, Repr

/-- A downstream middleware.Handler: from context and request to reply and
    error (the error as an error-message option). -/
abbrev Handler := Ctx → Payload → Payload × Option String

/-- The deferred block shared verbatim by both middlewares: set Trace-Id and
    Span-Id on the reply headers, and Content-Type when the reply is a
    proto.Message. -/
def finalizeReplyHeader (base : Headers) (tid sid : String) (reply : Payload) : Headers :=
  let h1 := setHeader base "Trace-Id" tid
  let h2 := setHeader h1 "Span-Id" sid
  match reply with
  | .proto _ => setHeader h2 contentTypeKey jsonContentType
  | _ => h2

/-- src/unnamed/part_001 TracerLogPack applied to a handler and a request:
    cancelled context short-circuits; missing transport degrades to a warned
    direct call; otherwise trace extraction, request log, handler, response
    log, and the deferred Trace-Id / Span-Id (and Content-Type for proto
    replies) reply-header writes. -/
def TracerLogPack (handler : Handler) (ctx : Ctx) (transp : Option Transp)
    (req : Payload) : MwResult :=
  match ctx.err with
  | some e => ⟨none, some e, false, false, (transp.map (·.replyHeader)).getD [], [], []⟩
  | none =>
    match transp with
    | none =>
      let r := handler ctx req
      ⟨some r.1, r.2, true, false, [], [.warnNoTransport], []⟩
    | some tr =>
      let ctx1 := extractTraceContextFromRequest ctx (some tr.reqHeader)
      let span := ctxSpanContext ctx1
      let ids := traceIDAndSpanIDFromSpan span
      let api := tr.operation
      let reqLog := LogEvent.request api tr.endpoint (getClientIP tr.reqHeader)
        (logBodyFor "request" req)
      let r := handler ctx1 req
      let respLog := LogEvent.response r.2.isSome api tr.endpoint
        (logBodyFor "response" r.1)
      ⟨some r.1, r.2, true, true,
        finalizeReplyHeader tr.replyHeader ids.1 ids.2 r.1, [reqLog, respLog], []⟩

/-- src/unnamed/part_001 TracerLogPackWithMetrics: as TracerLogPack, plus
    in-flight gauge inc/dec, request/response size observations for proto
    payloads whose proto.Marshal succeeds, a duration observation, a request
    counter labelled by outcome, and an error counter on failure — all with
    the literal "POST" method label and guarded by nil checks on the service
    and each sink. Metric events are listed in emission order (the deferred
    in-flight decrement runs last). -/
def TracerLogPackWithMetrics (service : Option ServiceM) (handler : Handler)
    (ctx : Ctx) (transp : Option Transp) (req : Payload) : MwResult :=
  match ctx.err with
  | some e => ⟨none, some e, false, false, (transp.map (·.replyHeader)).getD [], [], []⟩
  | none =>
    match transp with
    | none =>
      let r := handler ctx req
      ⟨some r.1, r.2, true, false, [], [.warnNoTransport], []⟩
    | some tr =>
      let ctx1 := extractTraceContextFromRequest ctx (some tr.reqHeader)
      let span := ctxSpanContext ctx1
      let ids := traceIDAndSpanIDFromSpan span
      let api := tr.operation
      let reqLog := LogEvent.request api tr.endpoint (getClientIP tr.reqHeader)
        (logBodyFor "request" req)
      let mInflightInc := match service with
        | some s => if s.hasInflight then [MetricEvent.inflightInc api] else []
        | none => []
      let mInflightDec := match service with
        | some s => if s.hasInflight then [MetricEvent.inflightDec api] else []
        | none => []
      let mReqSize := match service, req with
        | some s, .proto m =>
          if s.hasRequestSize then
            match m.pbinSize with
            | some n => [MetricEvent.requestSize "POST" api n]
            | none => []
          else []
        | _, _ => []
      let r := handler ctx1 req
      let respLog := LogEvent.response r.2.isSome api tr.endpoint
        (logBodyFor "response" r.1)
      let mAfter := match service with
        | none => []
        | some s =>
          (if s.hasRequestDuration then [MetricEvent.requestDuration "POST" api] else []) ++
          (if s.hasRequestCounter then
            [MetricEvent.requestCount "POST" api (if r.2.isSome then "error" else "success")]
           else []) ++
          (match r.1 with
           | .proto m =>
             if s.hasResponseSize then
               match m.pbinSize with
               | some n => [MetricEvent.responseSize "POST" api n]
               | none => []
             else []
           | _ => []) ++
          (if r.2.isSome && s.hasErrorCounter then
            [MetricEvent.errorCount "POST" api "tracer_error"]
           else [])
      ⟨some r.1, r.2, true, true,
        finalizeReplyHeader tr.replyHeader ids.1 ids.2 r.1, [reqLog, respLog],
        mInflightInc ++ mReqSize ++ mAfter ++ mInflightDec⟩

/-! Helper lemmas. -/

/-- defaultErrorCode never returns zero. -/
theorem defaultErrorCode_ne_zero (se : Option KError) : defaultErrorCode se ≠ 0 := by
  match se with
  | none => simp [defaultErrorCode]
  | some k =>
    by_cases h : k.code = 0 <;> simp [defaultErrorCode, h]

theorem headerGet_set_same (h : Headers) (k v : String) :
    headerGet (setHeader h k v) k = some v := by
  simp [headerGet, setHeader, List.find?]

theorem find?_filter_ne (l : Headers) (k k' : String) (hne : k ≠ k') :
    (l.filter (fun p => p.1 != k')).find? (fun p => p.1 == k) =
      l.find? (fun p => p.1 == k) := by
  induction l with
  | nil => rfl
  | cons a t ih =>
    by_cases hak' : a.1 = k'
    · have hfa : (a.1 != k') = false := by simp [hak']
      have hpa : ¬((fun p : String × String => p.1 == k) a = true) := by
        simp [hak']
        intro h
        exact hne h.symm
      rw [List.filter_cons]
      simp only [hfa, Bool.false_eq_true, if_false]
      rw [ih]
      exact (List.find?_cons_of_neg t hpa).symm
    · have hfa : (a.1 != k') = true := by simp [hak']
      rw [List.filter_cons]
      simp only [hfa, if_true]
      by_cases hak : a.1 = k
      · have hp : ((fun p : String × String => p.1 == k) a) = true := by simp [hak]
        rw [@List.find?_cons_of_pos (String × String) (fun p => p.1 == k) a
              (t.filter (fun p => p.1 != k')) hp,
            @List.find?_cons_of_pos (String × String) (fun p => p.1 == k) a t hp]
      · have hp : ¬((fun p : String × String => p.1 == k) a = true) := by simp [hak]
        rw [@List.find?_cons_of_neg (String × String) (fun p => p.1 == k) a
              (t.filter (fun p => p.1 != k')) hp,
            @List.find?_cons_of_neg (String × String) (fun p => p.1 == k) a t hp, ih]

theorem headerGet_set_ne (h : Headers) (k k' v : String) (hne : k ≠ k') :
    headerGet (setHeader h k' v) k = headerGet h k := by
  have h1 : (k' == k) = false := by simp [Ne.symm hne]
  simp [headerGet, setHeader, List.find?, h1, find?_filter_ne h k k' hne]

/-! Claim theorems. -/

/-- C1: in enhancedErrorEncoder, a configured ErrorCodeMapper determines the
    envelope code verbatim; otherwise the code is the Kratos error's Code
    field when non-zero and 500 when that field is zero or the error is nil. -/
theorem enhancedErrorEncoder_code_resolution
    (mapper : Option (Option KError → Int)) (cp : Bool) (method path : String)
    (err : Option GoError) :
    (∀ f, mapper = some f →
      (enhancedErrorEncoder mapper cp method path err).body =
        some [("code", JValue.num (f (FromError err)))]) ∧
    (mapper = none →
      (enhancedErrorEncoder mapper cp method path err).body =
        some [("code", JValue.num (defaultErrorCode (FromError err)))]) ∧
    (∀ k, FromError err = some k → k.code ≠ 0 → defaultErrorCode (FromError err) = k.code) ∧
    (∀ k, FromError err = some k → k.code = 0 → defaultErrorCode (FromError err) = 500) ∧
    (FromError err = none → defaultErrorCode (FromError err) = 500) := by
  refine ⟨?_, ?_, ?_, ?_, ?_⟩
  · intro f hf; subst hf; rfl
  · intro hm; subst hm; rfl
  · intro k hk hkc; rw [hk]; simp [defaultErrorCode, hkc]
  · intro k hk hkc; rw [hk]; simp [defaultErrorCode, hkc]
  · intro hk; rw [hk]; rfl

theorem c1_witness :
    (enhancedErrorEncoder (some (fun _ => 123456)) true "GET" "/x"
      (some (.kratos 7 "R" "M"))).body = some [("code", JValue.num 123456)] ∧
    (enhancedErrorEncoder none true "GET" "/x"
      (some (.kratos 7 "R" "M"))).body = some [("code", JValue.num 7)] ∧
    (enhancedErrorEncoder none true "GET" "/x"
      (some (.kratos 0 "R" "M"))).body = some [("code", JValue.num 500)] ∧
    (enhancedErrorEncoder none true "GET" "/x" none).body =
      some [("code", JValue.num 500)] := by
  refine ⟨?_, ?_, ?_, ?_⟩
  · exact (enhancedErrorEncoder_code_resolution (some (fun _ => 123456)) true "GET" "/x"
      (some (.kratos 7 "R" "M"))).1 _ rfl
  · have h := enhancedErrorEncoder_code_resolution none true "GET" "/x"
      (some (.kratos 7 "R" "M"))
    have hb := h.2.1 rfl
    have hc := h.2.2.1 ⟨7, "R", "M"⟩ rfl (by decide)
    rw [hb, hc]
  · have h := enhancedErrorEncoder_code_resolution none true "GET" "/x"
      (some (.kratos 0 "R" "M"))
    have hb := h.2.1 rfl
    have hc := h.2.2.2.1 ⟨0, "R", "M"⟩ rfl rfl
    rw [hb, hc]
  · have h := enhancedErrorEncoder_code_resolution none true "GET" "/x" none
    have hb := h.2.1 rfl
    have hc := h.2.2.2.2 rfl
    rw [hb, hc]

/-- C2: every error response of EncodeErrorFunc and enhancedErrorEncoder
    writes transport status 200, and every body written is a JSON object
    holding exactly the integer code field and no message field. -/
theorem errorEncoders_status200_code_only
    (codec : Option Bool) (mapper : Option (Option KError → Int)) (cp : Bool)
    (method path : String) (err : Option GoError) :
    (EncodeErrorFunc codec err).status = some 200 ∧
    (enhancedErrorEncoder mapper cp method path err).status = some 200 ∧
    (∀ b, (EncodeErrorFunc codec err).body = some b →
      (∃ c, b = [("code", JValue.num c)]) ∧ jsonLookup b "message" = none) ∧
    (∀ b, (enhancedErrorEncoder mapper cp method path err).body = some b →
      (∃ c, b = [("code", JValue.num c)]) ∧ jsonLookup b "message" = none) := by
  have hne := defaultErrorCode_ne_zero (FromError err)
  refine ⟨?_, ?_, ?_, ?_⟩
  · match codec with
    | none => rfl
    | some true => rfl
    | some false => rfl
  · rfl
  · intro b hb
    have hbody : b = [("code", JValue.num (defaultErrorCode (FromError err)))] := by
      match codec with
      | none =>
        simp only [EncodeErrorFunc, jsonMarshalResponse, responseToJson, hne,
          if_neg hne] at hb
        simpa using hb.symm
      | some true =>
        simp only [EncodeErrorFunc, responseToJson, if_neg hne] at hb
        simpa using hb.symm
      | some false => simp [EncodeErrorFunc] at hb
    refine ⟨⟨_, hbody⟩, ?_⟩
    rw [hbody]; rfl
  · intro b hb
    cases mapper with
    | none =>
      have hbody : b = [("code", JValue.num (defaultErrorCode (FromError err)))] := by
        simp only [enhancedErrorEncoder, jsonMarshalCodeObj] at hb
        simpa using hb.symm
      refine ⟨⟨_, hbody⟩, ?_⟩
      rw [hbody]; rfl
    | some f =>
      have hbody : b = [("code", JValue.num (f (FromError err)))] := by
        simp only [enhancedErrorEncoder, jsonMarshalCodeObj] at hb
        simpa using hb.symm
      refine ⟨⟨_, hbody⟩, ?_⟩
      rw [hbody]; rfl

theorem c2_witness :
    (EncodeErrorFunc none (some (.plain "x"))).status = some 200 ∧
    ((EncodeErrorFunc none (some (.plain "x"))).body = some [("code", JValue.num 500)] ∧
      jsonLookup [("code", JValue.num 500)] "message" = none) := by
  have h := errorEncoders_status200_code_only none none true "GET" "/x" (some (.plain "x"))
  refine ⟨h.1, rfl, (h.2.2.1 [("code", JValue.num 500)] rfl).2⟩

/-- C3 counterexample: on serialization failure ResponseEncoder writes no
    body at all (it writes status 500 and returns the marshal error), and
    EncodeErrorFunc's codec path likewise writes no body — refuting the
    claim that every serialization failure falls back to a hard-coded
    envelope body on both paths. -/
theorem serializationFallback_counterexample :
    (ResponseEncoder none DataVal.unencodable).body = none ∧
    (ResponseEncoder none DataVal.unencodable).status = some 500 ∧
    (ResponseEncoder none DataVal.unencodable).retErr = true ∧
    (EncodeErrorFunc (some false) none).body = none ∧
    (EncodeErrorFunc (some false) none).status = some 200 := by
  decide

/-- C3 amended: only enhancedErrorEncoder always writes a body (hard-coded
    fallback included); on serialization failure ResponseEncoder writes
    status 500 and returns the error with no body, and EncodeErrorFunc
    writes status 200 with no body. -/
theorem serializationFallback_amended
    (mapper : Option (Option KError → Int)) (cp : Bool) (method path : String)
    (err : Option GoError) (data : DataVal) :
    (enhancedErrorEncoder mapper cp method path err).body.isSome = true ∧
    (jsonMarshalResponse 200 "success" data = none →
      (ResponseEncoder none data).body = none ∧
      (ResponseEncoder none data).status = some 500 ∧
      (ResponseEncoder none data).retErr = true) ∧
    ((ResponseEncoder (some false) data).body = none ∧
      (ResponseEncoder (some false) data).status = some 500 ∧
      (ResponseEncoder (some false) data).retErr = true) ∧
    ((EncodeErrorFunc (some false) err).body = none ∧
      (EncodeErrorFunc (some false) err).status = some 200) := by
  refine ⟨?_, ?_, ?_, ?_⟩
  · cases mapper <;> rfl
  · intro hm
    simp [ResponseEncoder, hm]
  · exact ⟨rfl, rfl, rfl⟩
  · exact ⟨rfl, rfl⟩

theorem c3_witness :
    (enhancedErrorEncoder none true "GET" "/x" none).body.isSome = true ∧
    ((ResponseEncoder none DataVal.unencodable).body = none ∧
      (ResponseEncoder none DataVal.unencodable).status = some 500 ∧
      (ResponseEncoder none DataVal.unencodable).retErr = true) := by
  have h := serializationFallback_amended none true "GET" "/x" none DataVal.unencodable
  exact ⟨h.1, h.2.1 rfl⟩

/-- C9: in notFoundHandler and methodNotAllowedHandler a failed body write
    returns before the error counter increment and the warning; both happen
    exactly when the write succeeds, with the counter labelled
    (method, path, "not_found") / (method, path, "method_not_allowed") when
    the counter sink exists. -/
theorem fallbackHandlers_write_gates_counter
    (cp mOk wOk : Bool) (method path : String) :
    (wOk = false →
      (notFoundHandler cp mOk wOk method path).counters = [] ∧
      (notFoundHandler cp mOk wOk method path).warned = false ∧
      (methodNotAllowedHandler cp mOk wOk method path).counters = [] ∧
      (methodNotAllowedHandler cp mOk wOk method path).warned = false) ∧
    ((notFoundHandler cp mOk wOk method path).warned = true → wOk = true) ∧
    ((notFoundHandler cp mOk wOk method path).counters ≠ [] → wOk = true) ∧
    ((methodNotAllowedHandler cp mOk wOk method path).warned = true → wOk = true) ∧
    ((methodNotAllowedHandler cp mOk wOk method path).counters ≠ [] → wOk = true) ∧
    (wOk = true →
      (notFoundHandler cp mOk wOk method path).warned = true ∧
      (notFoundHandler cp mOk wOk method path).counters =
        (if cp then [(method, path, "not_found")] else []) ∧
      (methodNotAllowedHandler cp mOk wOk method path).warned = true ∧
      (methodNotAllowedHandler cp mOk wOk method path).counters =
        (if cp then [(method, path, "method_not_allowed")] else [])) := by
  cases wOk <;> cases mOk <;> cases cp <;>
    simp [notFoundHandler, methodNotAllowedHandler]

theorem c9_witness :
    (notFoundHandler true true false "GET" "/missing").counters = [] ∧
    (notFoundHandler true true false "GET" "/missing").warned = false ∧
    (notFoundHandler true true true "GET" "/missing").counters =
      [("GET", "/missing", "not_found")] ∧
    (methodNotAllowedHandler true true true "DELETE" "/only-get").counters =
      [("DELETE", "/only-get", "method_not_allowed")] := by
  have h1 := fallbackHandlers_write_gates_counter true true false "GET" "/missing"
  have h2 := fallbackHandlers_write_gates_counter true true true "GET" "/missing"
  have h3 := fallbackHandlers_write_gates_counter true true true "DELETE" "/only-get"
  refine ⟨(h1.1 rfl).1, (h1.1 rfl).2.1, ?_, ?_⟩
  · rw [(h2.2.2.2.2.2 rfl).2.1]; rfl
  · rw [(h3.2.2.2.2.2 rfl).2.2.2]; rfl

/-- C10: defaultErrorCode is non-zero for every input (nil included), so
    despite the omitempty tag on Response.Code every body EncodeErrorFunc
    writes carries the code field. -/
theorem defaultErrorCode_nonzero_code_serialized :
    (∀ se : Option KError, defaultErrorCode se ≠ 0) ∧
    (∀ (codec : Option Bool) (err : Option GoError) (b : JObj),
      (EncodeErrorFunc codec err).body = some b →
      jsonLookup b "code" = some (JValue.num (defaultErrorCode (FromError err)))) := by
  refine ⟨defaultErrorCode_ne_zero, ?_⟩
  intro codec err b hb
  have hne := defaultErrorCode_ne_zero (FromError err)
  have hbody : b = [("code", JValue.num (defaultErrorCode (FromError err)))] := by
    match codec with
    | none =>
      simp only [EncodeErrorFunc, jsonMarshalResponse, responseToJson, if_neg hne] at hb
      simpa using hb.symm
    | some true =>
      simp only [EncodeErrorFunc, responseToJson, if_neg hne] at hb
      simpa using hb.symm
    | some false => simp [EncodeErrorFunc] at hb
  rw [hbody]
  simp [jsonLookup]

theorem c10_witness :
    jsonLookup [("code", JValue.num 500)] "code" = some (JValue.num 500) ∧
    (EncodeErrorFunc none (some (.kratos 0 "R" "M"))).body =
      some [("code", JValue.num 500)] := by
  have hb : (EncodeErrorFunc none (some (.kratos 0 "R" "M"))).body =
      some [("code", JValue.num 500)] := by rfl
  have h := defaultErrorCode_nonzero_code_serialized.2 none
    (some (.kratos 0 "R" "M")) [("code", JValue.num 500)] hb
  exact ⟨h, hb⟩

theorem finalizeReplyHeader_gets (base : Headers) (tid sid : String) (p : Payload) :
    headerGet (finalizeReplyHeader base tid sid p) "Trace-Id" = some tid ∧
    headerGet (finalizeReplyHeader base tid sid p) "Span-Id" = some sid := by
  cases p with
  | proto m =>
    constructor
    · rw [show finalizeReplyHeader base tid sid (.proto m) =
          setHeader (setHeader (setHeader base "Trace-Id" tid) "Span-Id" sid)
            contentTypeKey jsonContentType from rfl]
      rw [headerGet_set_ne _ _ _ _ (by decide), headerGet_set_ne _ _ _ _ (by decide),
        headerGet_set_same]
    · rw [show finalizeReplyHeader base tid sid (.proto m) =
          setHeader (setHeader (setHeader base "Trace-Id" tid) "Span-Id" sid)
            contentTypeKey jsonContentType from rfl]
      rw [headerGet_set_ne _ _ _ _ (by decide), headerGet_set_same]
  | raw r =>
    constructor
    · rw [show finalizeReplyHeader base tid sid (.raw r) =
          setHeader (setHeader base "Trace-Id" tid) "Span-Id" sid from rfl]
      rw [headerGet_set_ne _ _ _ _ (by decide), headerGet_set_same]
    · rw [show finalizeReplyHeader base tid sid (.raw r) =
          setHeader (setHeader base "Trace-Id" tid) "Span-Id" sid from rfl]
      rw [headerGet_set_same]
  | nil =>
    constructor
    · rw [show finalizeReplyHeader base tid sid .nil =
          setHeader (setHeader base "Trace-Id" tid) "Span-Id" sid from rfl]
      rw [headerGet_set_ne _ _ _ _ (by decide), headerGet_set_same]
    · rw [show finalizeReplyHeader base tid sid .nil =
          setHeader (setHeader base "Trace-Id" tid) "Span-Id" sid from rfl]
      rw [headerGet_set_same]

/-- C4: with an uncancelled context and an available transport, the
    middleware (both variants, any handler outcome) always sets the Trace-Id
    and Span-Id reply headers from the extracted span; when that span is
    invalid, both values are the "none" sentinel. -/
theorem tracerMiddleware_sets_trace_headers
    (svc : Option ServiceM) (handler : Handler) (ctx : Ctx) (tr : Transp)
    (req : Payload) (hc : ctx.err = none) :
    headerGet (TracerLogPack handler ctx (some tr) req).replyHeader "Trace-Id" =
      some (traceIDAndSpanIDFromSpan (ctxSpanContext
        (extractTraceContextFromRequest ctx (some tr.reqHeader)))).1 ∧
    headerGet (TracerLogPack handler ctx (some tr) req).replyHeader "Span-Id" =
      some (traceIDAndSpanIDFromSpan (ctxSpanContext
        (extractTraceContextFromRequest ctx (some tr.reqHeader)))).2 ∧
    headerGet (TracerLogPackWithMetrics svc handler ctx (some tr) req).replyHeader "Trace-Id" =
      some (traceIDAndSpanIDFromSpan (ctxSpanContext
        (extractTraceContextFromRequest ctx (some tr.reqHeader)))).1 ∧
    headerGet (TracerLogPackWithMetrics svc handler ctx (some tr) req).replyHeader "Span-Id" =
      some (traceIDAndSpanIDFromSpan (ctxSpanContext
        (extractTraceContextFromRequest ctx (some tr.reqHeader)))).2 ∧
    ((ctxSpanContext (extractTraceContextFromRequest ctx (some tr.reqHeader))).isValid = false →
      (traceIDAndSpanIDFromSpan (ctxSpanContext
        (extractTraceContextFromRequest ctx (some tr.reqHeader)))).1 = "none" ∧
      (traceIDAndSpanIDFromSpan (ctxSpanContext
        (extractTraceContextFromRequest ctx (some tr.reqHeader)))).2 = "none") := by
  obtain ⟨ce, cs⟩ := ctx
  have hce : ce = none := hc
  subst hce
  refine ⟨?_, ?_, ?_, ?_, ?_⟩
  · exact (finalizeReplyHeader_gets tr.replyHeader _ _ _).1
  · exact (finalizeReplyHeader_gets tr.replyHeader _ _ _).2
  · exact (finalizeReplyHeader_gets tr.replyHeader _ _ _).1
  · exact (finalizeReplyHeader_gets tr.replyHeader _ _ _).2
  · intro hinv
    simp [traceIDAndSpanIDFromSpan, hinv, traceIDNone, spanIDNone]

theorem c4_witness :
    headerGet (TracerLogPack (fun _ _ => (Payload.nil, some "boom")) ⟨none, none⟩
      (some ⟨[], [], "ep", "/op", "GET"⟩) Payload.nil).replyHeader "Trace-Id" =
      some "none" ∧
    headerGet (TracerLogPack (fun _ _ => (Payload.nil, some "boom")) ⟨none, none⟩
      (some ⟨[], [], "ep", "/op", "GET"⟩) Payload.nil).replyHeader "Span-Id" =
      some "none" ∧
    headerGet (TracerLogPack (fun _ _ => (Payload.nil, none)) ⟨none, none⟩
      (some ⟨[("traceparent", "00-0af7651916cd43dd8448eb211c80319c-b7ad6b7169203331-01")],
        [], "ep", "/op", "GET"⟩) Payload.nil).replyHeader "Trace-Id" =
      some "0af7651916cd43dd8448eb211c80319c" := by
  have h1 := tracerMiddleware_sets_trace_headers none (fun _ _ => (Payload.nil, some "boom"))
    ⟨none, none⟩ ⟨[], [], "ep", "/op", "GET"⟩ Payload.nil rfl
  have h2 := tracerMiddleware_sets_trace_headers none (fun _ _ => (Payload.nil, none))
    ⟨none, none⟩
    ⟨[("traceparent", "00-0af7651916cd43dd8448eb211c80319c-b7ad6b7169203331-01")],
      [], "ep", "/op", "GET"⟩ Payload.nil rfl
  refine ⟨?_, ?_, ?_⟩
  · rw [h1.1]; decide
  · rw [h1.2.1]; decide
  · rw [h2.1]; decide

/-- C5: a context already cancelled at entry makes both middleware variants
    return the context's error with no handler invocation, no trace
    extraction, no log or metric emission, and untouched reply headers. -/
theorem tracerMiddleware_cancelled_short_circuit
    (svc : Option ServiceM) (handler : Handler) (ctx : Ctx)
    (transp : Option Transp) (req : Payload) (e : String)
    (hc : ctx.err = some e) :
    TracerLogPack handler ctx transp req =
      ⟨none, some e, false, false, (transp.map (·.replyHeader)).getD [], [], []⟩ ∧
    TracerLogPackWithMetrics svc handler ctx transp req =
      ⟨none, some e, false, false, (transp.map (·.replyHeader)).getD [], [], []⟩ := by
  obtain ⟨ce, cs⟩ := ctx
  have hce : ce = some e := hc
  subst hce
  exact ⟨rfl, rfl⟩

theorem c5_witness :
    TracerLogPack (fun _ _ => (Payload.nil, none)) ⟨some "context canceled", none⟩
      (some ⟨[], [("A", "B")], "ep", "/op", "GET"⟩) Payload.nil =
      ⟨none, some "context canceled", false, false, [("A", "B")], [], []⟩ ∧
    TracerLogPackWithMetrics (some ⟨true, true, true, true, true, true⟩)
      (fun _ _ => (Payload.nil, none)) ⟨some "context canceled", none⟩
      (some ⟨[], [("A", "B")], "ep", "/op", "GET"⟩) Payload.nil =
      ⟨none, some "context canceled", false, false, [("A", "B")], [], []⟩ := by
  exact tracerMiddleware_cancelled_short_circuit (some ⟨true, true, true, true, true, true⟩)
    (fun _ _ => (Payload.nil, none)) ⟨some "context canceled", none⟩
    (some ⟨[], [("A", "B")], "ep", "/op", "GET"⟩) Payload.nil "context canceled" rfl

/-- C8 (code evaluated at the failing input): extractTraceContextFromRequest
    applied to a context already carrying a valid span and to headers with a
    different valid traceparent rebinds the span to the header's identity
    instead of leaving it unchanged. -/
theorem extract_overwrites_valid_span :
    (⟨1, 2⟩ : SpanContext).isValid = true ∧
    extractTraceContextFromRequest ⟨none, some ⟨1, 2⟩⟩
      (some [("traceparent", "00-0af7651916cd43dd8448eb211c80319c-b7ad6b7169203331-01")]) =
      ⟨none, some ⟨0x0af7651916cd43dd8448eb211c80319c, 0xb7ad6b7169203331⟩⟩ ∧
    (⟨0x0af7651916cd43dd8448eb211c80319c, 0xb7ad6b7169203331⟩ : SpanContext) ≠
      (⟨1, 2⟩ : SpanContext) := by
  decide

theorem mem_ite_singleton {α : Type} {c : Prop} [Decidable c] {x ev : α}
    (h : ev ∈ if c then [x] else ([] : List α)) : ev = x := by
  split at h
  · simpa using h
  · cases h

/-- C6: safeProtoToJSON returns the size placeholder for successfully
    serialized bodies strictly over 1 MiB, the body itself at or under the
    limit, and the error (not a panic) on marshal failure — after which the
    middleware still invokes the handler and returns its outcome. -/
theorem safeProtoToJSON_size_bound (m : PMsg) :
    (∀ body, m.pjson = .ok body → body.length > maxBodySize →
      safeProtoToJSON m = (oversizePlaceholder body.length, none)) ∧
    (∀ body, m.pjson = .ok body → body.length ≤ maxBodySize →
      safeProtoToJSON m = (body, none)) ∧
    (∀ e, m.pjson = .failed e → safeProtoToJSON m = ("", some e)) ∧
    (∀ (handler : Handler) (ctx : Ctx) (tr : Transp), ctx.err = none →
      (TracerLogPack handler ctx (some tr) (.proto m)).handlerInvoked = true ∧
      (TracerLogPack handler ctx (some tr) (.proto m)).err =
        (handler (extractTraceContextFromRequest ctx (some tr.reqHeader)) (.proto m)).2) := by
  refine ⟨?_, ?_, ?_, ?_⟩
  · intro body hb hgt
    simp only [safeProtoToJSON, hb]
    simp [hgt]
  · intro body hb hle
    simp only [safeProtoToJSON, hb]
    simp [Nat.not_lt.mpr hle]
  · intro e he
    simp only [safeProtoToJSON, he]
  · intro handler ctx tr hc
    obtain ⟨ce, cs⟩ := ctx
    have hce : ce = none := hc
    subst hce
    exact ⟨rfl, rfl⟩

theorem c6_witness :
    safeProtoToJSON ⟨.ok (String.mk (List.replicate 1048577 'a')), none⟩ =
      (oversizePlaceholder 1048577, none) ∧
    oversizePlaceholder 1048577 = "<body too large, size: 1048577 bytes>" ∧
    safeProtoToJSON ⟨.ok "ab", some 2⟩ = ("ab", none) ∧
    safeProtoToJSON ⟨.failed "x", none⟩ = ("", some "x") ∧
    (TracerLogPack (fun _ _ => (Payload.nil, some "boom")) ⟨none, none⟩
      (some ⟨[], [], "ep", "/op", "GET"⟩)
      (.proto ⟨.failed "x", none⟩)).handlerInvoked = true := by
  have hl : (String.mk (List.replicate 1048577 'a')).length = 1048577 := by
    rw [show (String.mk (List.replicate 1048577 'a')).length =
      (List.replicate 1048577 'a').length from rfl, List.length_replicate]
  refine ⟨?_, by decide, ?_, ?_, ?_⟩
  · have h := (safeProtoToJSON_size_bound
      ⟨.ok (String.mk (List.replicate 1048577 'a')), none⟩).1
      (String.mk (List.replicate 1048577 'a')) rfl (by rw [hl]; decide)
    rw [hl] at h
    exact h
  · exact (safeProtoToJSON_size_bound ⟨.ok "ab", some 2⟩).2.1 "ab" rfl (by decide)
  · exact (safeProtoToJSON_size_bound ⟨.failed "x", none⟩).2.2.1 "x" rfl
  · exact ((safeProtoToJSON_size_bound ⟨.failed "x", none⟩).2.2.2
      (fun _ _ => (Payload.nil, some "boom")) ⟨none, none⟩ ⟨[], [], "ep", "/op", "GET"⟩ rfl).1

/-- C7 counterexample: with the underlying request method "GET", the request
    counter is still labelled with the literal "POST", so metrics are not
    labelled with the request's actual HTTP method. -/
theorem metricsMethodLabel_counterexample :
    MetricEvent.requestCount "POST" "/svc/Op" "success" ∈
      (TracerLogPackWithMetrics (some ⟨true, true, true, true, true, true⟩)
        (fun _ _ => (Payload.nil, none)) ⟨none, none⟩
        (some ⟨[], [], "ep", "/svc/Op", "GET"⟩) Payload.nil).metrics ∧
    (⟨[], [], "ep", "/svc/Op", "GET"⟩ : Transp).method = "GET" ∧
    (MetricEvent.requestCount "POST" "/svc/Op" "success").methodLabel ≠ some "GET" := by
  decide

/-- Exact shape of every metric event the metrics-enabled middleware can
    emit on the traced path: each carries the literal "POST" method label
    (the in-flight gauge none), the operation name, the request counter the
    outcome matching the returned error, and the error counter only when an
    error was returned. -/
theorem metricsMembership_shape
    (svc : ServiceM) (handler : Handler) (cs : Option SpanContext) (tr : Transp)
    (req : Payload) :
    ∀ ev ∈ (TracerLogPackWithMetrics (some svc) handler ⟨none, cs⟩ (some tr) req).metrics,
      ev = MetricEvent.inflightInc tr.operation ∨
      ev = MetricEvent.inflightDec tr.operation ∨
      (∃ n, ev = MetricEvent.requestSize "POST" tr.operation n) ∨
      ev = MetricEvent.requestDuration "POST" tr.operation ∨
      ev = MetricEvent.requestCount "POST" tr.operation
        (if (TracerLogPackWithMetrics (some svc) handler ⟨none, cs⟩ (some tr) req).err.isSome
          then "error" else "success") ∨
      (∃ n, ev = MetricEvent.responseSize "POST" tr.operation n) ∨
      (ev = MetricEvent.errorCount "POST" tr.operation "tracer_error" ∧
        (TracerLogPackWithMetrics (some svc) handler ⟨none, cs⟩ (some tr) req).err.isSome =
          true) := by
  intro ev hev
  simp only [TracerLogPackWithMetrics, List.mem_append] at hev ⊢
  rcases hev with ((h | h) | (((h | h) | h) | h)) | h
  · exact Or.inl (mem_ite_singleton h)
  · cases req with
    | proto m =>
      obtain ⟨pj, pb⟩ := m
      cases pb with
      | some n => exact Or.inr (Or.inr (Or.inl ⟨n, mem_ite_singleton h⟩))
      | none => simp [ite_self] at h
    | raw r => cases h
    | nil => cases h
  · exact Or.inr (Or.inr (Or.inr (Or.inl (mem_ite_singleton h))))
  · exact Or.inr (Or.inr (Or.inr (Or.inr (Or.inl (mem_ite_singleton h)))))
  · generalize (handler (extractTraceContextFromRequest ⟨none, cs⟩ (some tr.reqHeader)) req :
        Payload × Option String).1 = r1 at h
    cases r1 with
    | proto m =>
      obtain ⟨pj, pb⟩ := m
      cases pb with
      | some n =>
        exact Or.inr (Or.inr (Or.inr (Or.inr (Or.inr (Or.inl ⟨n, mem_ite_singleton h⟩)))))
      | none => simp [ite_self] at h
    | raw r => cases h
    | nil => cases h
  · by_cases hcond : ((handler (extractTraceContextFromRequest ⟨none, cs⟩
        (some tr.reqHeader)) req).2.isSome && svc.hasErrorCounter) = true
    · rw [if_pos hcond] at h
      have he := List.mem_singleton.1 h
      have hsome : (handler (extractTraceContextFromRequest ⟨none, cs⟩
          (some tr.reqHeader)) req).2.isSome = true := by
        have h2 := hcond
        simp only [Bool.and_eq_true] at h2
        exact h2.1
      exact Or.inr (Or.inr (Or.inr (Or.inr (Or.inr (Or.inr ⟨he, hsome⟩)))))
    · rw [if_neg hcond] at h
      cases h
  · exact Or.inr (Or.inl (mem_ite_singleton h))

/-- C7 amended: every metric the metrics-enabled middleware records carries
    the literal "POST" method label (the in-flight gauge carries none) and
    the transport's operation name, and the outcome where applicable: the
    request counter's status label is "error" exactly when the middleware
    returns an error and "success" otherwise, and the error counter (reason
    "tracer_error") is recorded only when an error is returned. -/
theorem metricsLabels_post_literal
    (svc : ServiceM) (handler : Handler) (ctx : Ctx) (tr : Transp) (req : Payload)
    (hc : ctx.err = none) :
    (∀ ev ∈ (TracerLogPackWithMetrics (some svc) handler ctx (some tr) req).metrics,
      (ev.methodLabel = none ∨ ev.methodLabel = some "POST") ∧
      ev.apiLabel = tr.operation) ∧
    (∀ m a status, MetricEvent.requestCount m a status ∈
        (TracerLogPackWithMetrics (some svc) handler ctx (some tr) req).metrics →
      m = "POST" ∧ a = tr.operation ∧
      status = (if (TracerLogPackWithMetrics (some svc) handler ctx (some tr) req).err.isSome
        then "error" else "success")) ∧
    (∀ m a reason, MetricEvent.errorCount m a reason ∈
        (TracerLogPackWithMetrics (some svc) handler ctx (some tr) req).metrics →
      m = "POST" ∧ a = tr.operation ∧ reason = "tracer_error" ∧
      (TracerLogPackWithMetrics (some svc) handler ctx (some tr) req).err.isSome =
        true) := by
  obtain ⟨ce, cs⟩ := ctx
  have hce : ce = none := hc
  subst hce
  refine ⟨?_, ?_, ?_⟩
  · intro ev hev
    rcases metricsMembership_shape svc handler cs tr req ev hev with
      h | h | ⟨n, h⟩ | h | h | ⟨n, h⟩ | ⟨h, hs⟩ <;> subst h
    · exact ⟨Or.inl rfl, rfl⟩
    · exact ⟨Or.inl rfl, rfl⟩
    · exact ⟨Or.inr rfl, rfl⟩
    · exact ⟨Or.inr rfl, rfl⟩
    · exact ⟨Or.inr rfl, rfl⟩
    · exact ⟨Or.inr rfl, rfl⟩
    · exact ⟨Or.inr rfl, rfl⟩
  · intro m a status hmem
    rcases metricsMembership_shape svc handler cs tr req _ hmem with
      h | h | ⟨n, h⟩ | h | h | ⟨n, h⟩ | ⟨h, hs⟩ <;> cases h
    exact ⟨rfl, rfl, rfl⟩
  · intro m a reason hmem
    rcases metricsMembership_shape svc handler cs tr req _ hmem with
      h | h | ⟨n, h⟩ | h | h | ⟨n, h⟩ | ⟨h, hs⟩ <;> cases h
    exact ⟨rfl, rfl, rfl, hs⟩

theorem c7_witness :
    (((MetricEvent.requestCount "POST" "/svc/Op" "success").methodLabel = none ∨
      (MetricEvent.requestCount "POST" "/svc/Op" "success").methodLabel = some "POST") ∧
      (MetricEvent.requestCount "POST" "/svc/Op" "success").apiLabel = "/svc/Op") ∧
    ("error" : String) =
      (if (TracerLogPackWithMetrics (some ⟨true, true, true, true, true, true⟩)
            (fun _ _ => (Payload.nil, some "boom")) ⟨none, none⟩
            (some ⟨[], [], "ep", "/svc/Op", "GET"⟩) Payload.nil).err.isSome
        then "error" else "success") ∧
    (TracerLogPackWithMetrics (some ⟨true, true, true, true, true, true⟩)
        (fun _ _ => (Payload.nil, some "boom")) ⟨none, none⟩
        (some ⟨[], [], "ep", "/svc/Op", "GET"⟩) Payload.nil).err.isSome = true := by
  have hok := metricsLabels_post_literal ⟨true, true, true, true, true, true⟩
    (fun _ _ => (Payload.nil, none)) ⟨none, none⟩ ⟨[], [], "ep", "/svc/Op", "GET"⟩
    Payload.nil rfl
  have herr := metricsLabels_post_literal ⟨true, true, true, true, true, true⟩
    (fun _ _ => (Payload.nil, some "boom")) ⟨none, none⟩ ⟨[], [], "ep", "/svc/Op", "GET"⟩
    Payload.nil rfl
  have h1 := hok.1 (MetricEvent.requestCount "POST" "/svc/Op" "success") (by decide)
  have h2 := herr.2.1 "POST" "/svc/Op" "error" (by decide)
  have h3 := herr.2.2 "POST" "/svc/Op" "tracer_error" (by decide)
  exact ⟨h1, h2.2.2, h3.2.2.2⟩

end LynxHttp
